import Mathlib

/-!
Verification of the Pooler backend-sync module (`BackendSync`): the merge
reconciler (`mergeReports`), the engine lifecycle (`initializeSync`,
`startAutoSync`, `stopAutoSync`), and the transfer operations
(`uploadReports`, `downloadReports`, `syncNewReport`).

The embedding is a shallow one: the mutable `this.poolerApp.poopReports`
array becomes an explicit `List Report` threaded through the functions,
DOM/console side effects become explicit effect records, network calls
(`fetch`) become `Except`-valued parameters supplied by the environment,
and `setInterval`/`clearInterval` handles become an explicit timer system.
ISO-8601 timestamps are represented by the instant they parse to
(`new Date(s)` comparison), modelled as a natural number of epoch
milliseconds.
-/

namespace Pooler

/-- A report record, the unit of synchronization.  Fields are the ones the
report-creation form assembles (`app.js`, `submitReport`).  `timestamp` is
the parsed instant of the ISO-8601 creation time. -/
structure Report where
  id : String
  lat : Int
  lng : Int
  severity : String
  locationType : String
  notes : String
  notifyMunicipality : Bool
  timestamp : Nat
  reportedBy : String
  status : String
  confirmations : Nat
  cleanupRequested : Bool
  deriving Repr, DecidableEq

/-- `localReports.find(r => r.id === a)`: first record with the given id. -/
def findById (a : String) : List Report → Option Report
  | [] => none
  | x :: xs => if x.id = a then some x else findById a xs

/-- In-place `Object.assign(localReport, remoteReport)` on the first record
whose id is `a`: with the fixed record schema this replaces that record
wholesale by `r`, leaving its position in the array unchanged. -/
def updateFirst (a : String) (r : Report) : List Report → List Report
  | [] => []
  | x :: xs => if x.id = a then r :: xs else x :: updateFirst a r xs

/-- Mutable state of the `remoteReports.forEach` loop inside
`mergeReports`: the (aliased) local array, the `newReports` counter, and
the accumulated UI calls (`addPoopMarker`, `updateMarkerPopup`). -/
structure MergeLoopState where
  reports : List Report
  newCount : Nat
  markersAdded : List Report
  popupsUpdated : List String
  deriving Repr, DecidableEq

/-- One iteration of the `forEach` loop in `mergeReports`.  `localIds` is
the `Set` snapshot taken before the loop; note it is never extended while
the loop runs, exactly as in the source. -/
def mergeOne (localIds : List String) (st : MergeLoopState) (r : Report) : MergeLoopState :=
  if r.id ∈ localIds then
    match findById r.id st.reports with
    | some l =>
        if l.timestamp < r.timestamp then
          { st with reports := updateFirst r.id r st.reports,
                    popupsUpdated := st.popupsUpdated ++ [r.id] }
        else st
    | none => st
  else
    { st with reports := st.reports ++ [r],
              newCount := st.newCount + 1,
              markersAdded :=
                if r.status = "active" then st.markersAdded ++ [r] else st.markersAdded }

/-- Text of the aggregate `showSyncNotification` toast (the leading inbox
emoji of the source string is elided). -/
def notifMessage (n : Nat) : String :=
  toString n ++ " new poop alert" ++ (if 1 < n then "s" else "") ++ " nearby!"

/-- Result of a `mergeReports` call: the updated local array plus every
side effect the call performed. -/
structure MergeResult where
  reports : List Report
  newReports : Nat
  markersAdded : List Report
  popupsUpdated : List String
  persisted : Bool
  statsUpdated : Bool
  notificationsShown : List String
  deriving Repr, DecidableEq

/-- `mergeReports(remoteReports)` from `BackendSync`, with the local array
passed explicitly.  The id snapshot, the per-record loop, and the final
`if (newReports > 0)` block (persist + single aggregate toast) follow the
source line by line. -/
def mergeReports (localReports remoteReports : List Report) : MergeResult :=
  let localIds := localReports.map (fun r => r.id)
  let fin := remoteReports.foldl (mergeOne localIds) ⟨localReports, 0, [], []⟩
  { reports := fin.reports
    newReports := fin.newCount
    markersAdded := fin.markersAdded
    popupsUpdated := fin.popupsUpdated
    persisted := decide (0 < fin.newCount)
    statsUpdated := decide (0 < fin.newCount)
    notificationsShown := if 0 < fin.newCount then [notifMessage fin.newCount] else [] }

/-- The action of one loop iteration on the initial-local segment of the
array only; used to state the structural decomposition of the merge loop
(new remote records are appended, so they never affect this segment). -/
def updateLocal (localIds : List String) (bp : List Report × List String) (r : Report) :
    List Report × List String :=
  if r.id ∈ localIds then
    match findById r.id bp.1 with
    | some l =>
        if l.timestamp < r.timestamp then (updateFirst r.id r bp.1, bp.2 ++ [r.id])
        else bp
    | none => bp
  else bp

/-- The remote records the loop classifies as new: those whose id is not
in the pre-loop snapshot, in remote order. -/
def newRemote (localIds : List String) (R : List Report) : List Report :=
  R.filter (fun r => decide (r.id ∉ localIds))

/- ---------------------------------------------------------------- -/
/- Sync engine state and lifecycle                                   -/
/- ---------------------------------------------------------------- -/

/-- The four adapter variants of `this.syncMethod`. -/
inductive SyncMethod
  | firebase
  | githubGist
  | custom
  | simple
  deriving Repr, DecidableEq

/-- The persisted `poolerSyncConfig` object (union of the fields the four
adapters read). -/
structure SyncConfig where
  method : Option SyncMethod := none
  gistId : Option String := none
  githubToken : Option String := none
  key : Option String := none
  masterKey : Option String := none
  firebase : Option String := none
  apiEndpoint : Option String := none
  apiKey : Option String := none
  deriving Repr, DecidableEq

/-- The browser's interval-timer registry: the set of live interval
handles together with the next fresh handle.  `setInterval` registers a
new live handle, `clearInterval h` retires `h`. -/
structure TimerSys where
  live : List Nat
  nextHandle : Nat
  deriving Repr, DecidableEq

def setIntervalT (t : TimerSys) : TimerSys × Nat :=
  ({ live := t.live ++ [t.nextHandle], nextHandle := t.nextHandle + 1 }, t.nextHandle)

def clearIntervalT (t : TimerSys) (h : Nat) : TimerSys :=
  { t with live := t.live.filter (fun x => decide (x ≠ h)) }

/-- Runtime state of a `BackendSync` instance plus the pieces of its
environment the claims observe (the timer registry, the local report
array owned by the host app, the firebase `reportsRef.on` listener). -/
structure SyncState where
  syncEnabled : Bool
  syncMethod : Option SyncMethod
  syncConfig : SyncConfig
  syncInterval : Option Nat
  timers : TimerSys
  subscriptionActive : Bool
  reports : List Report
  lastSyncTime : Nat
  deriving Repr, DecidableEq

/-- The `BackendSync` constructor state after `loadSyncConfig`, before any
`initializeSync` runs. -/
def mkBackendSync (config : SyncConfig) (reports : List Report) : SyncState :=
  { syncEnabled := false
    syncMethod := config.method
    syncConfig := config
    syncInterval := none
    timers := { live := [], nextHandle := 0 }
    subscriptionActive := false
    reports := reports
    lastSyncTime := 0 }

/-- Effects of `startAutoSync` other than the state change: it kicks off
one immediate `downloadReports`. -/
structure StartEffects where
  initialDownloadTriggered : Bool
  deriving Repr, DecidableEq

/-- `startAutoSync`: clear any existing interval, trigger an initial
download, register the 30-second interval. -/
def startAutoSync (st : SyncState) : SyncState × StartEffects :=
  let st1 :=
    match st.syncInterval with
    | some h => { st with timers := clearIntervalT st.timers h, syncInterval := none }
    | none => st
  let p := setIntervalT st1.timers
  ({ st1 with timers := p.1, syncInterval := some p.2 },
   { initialDownloadTriggered := true })

/-- `stopAutoSync`: clear the interval when one exists and null the
handle; nothing else is touched. -/
def stopAutoSync (st : SyncState) : SyncState :=
  match st.syncInterval with
  | some h => { st with timers := clearIntervalT st.timers h, syncInterval := none }
  | none => st

/-- `initSimpleSync`: requires the JSONBin key. -/
def initSimpleSync (st : SyncState) : Except String SyncState :=
  match st.syncConfig.key with
  | none => Except.error "JSONBin API key required. Get one free at jsonbin.io"
  | some _ => Except.ok st

/-- `createGist`: one `fetch` to the gist API; on success the new gist id
is written back into the persisted configuration (`saveSyncConfig`). -/
def createGist (st : SyncState) (net : Except String String) : Except String SyncState :=
  match net with
  | Except.error _ => Except.error "Failed to create GitHub Gist"
  | Except.ok newId =>
      Except.ok { st with syncConfig :=
        { st.syncConfig with gistId := some newId, method := some SyncMethod.githubGist } }

/-- `initGitHubGistSync`: use the configured gist, or lazily provision one
when a token is present; fail naming the missing credential otherwise. -/
def initGitHubGistSync (st : SyncState) (net : Except String String) : Except String SyncState :=
  match st.syncConfig.gistId with
  | some _ => Except.ok st
  | none =>
      match st.syncConfig.githubToken with
      | some _ => createGist st net
      | none => Except.error "GitHub token required to create sync storage"

/-- `initFirebaseSync`: load the SDK (a network action), require the
firebase config blob, then attach the realtime `on('value')` listener. -/
def initFirebaseSync (st : SyncState) (net : Except String String) : Except String SyncState :=
  match net with
  | Except.error _ => Except.error "Failed to load Firebase SDK"
  | Except.ok _ =>
      match st.syncConfig.firebase with
      | none => Except.error "Firebase configuration required"
      | some _ => Except.ok { st with subscriptionActive := true }

/-- `initCustomSync`: requires the endpoint. -/
def initCustomSync (st : SyncState) : Except String SyncState :=
  match st.syncConfig.apiEndpoint with
  | none => Except.error "Custom API endpoint required"
  | some _ => Except.ok st

/-- The `switch (this.syncMethod)` inside `initializeSync`'s `try`. -/
def initAdapter (m : SyncMethod) (st : SyncState) (net : Except String String) :
    Except String SyncState :=
  match m with
  | SyncMethod.firebase => initFirebaseSync st net
  | SyncMethod.githubGist => initGitHubGistSync st net
  | SyncMethod.custom => initCustomSync st
  | SyncMethod.simple => initSimpleSync st

/-- Effects of one `initializeSync` call: `showSyncError` toasts, whether
the initial download was kicked off, and the returned boolean. -/
structure InitEffects where
  uiErrors : List String
  initialDownloadTriggered : Bool
  returned : Bool
  deriving Repr, DecidableEq

/-- `initializeSync`: dispatch on the configured method; on success set
`syncEnabled` and call `startAutoSync`; any thrown error is caught,
surfaced through `showSyncError`, and `false` is returned. -/
def initializeSync (st : SyncState) (net : Except String String) : SyncState × InitEffects :=
  match st.syncMethod with
  | none =>
      (st, { uiErrors := [], initialDownloadTriggered := false, returned := false })
  | some m =>
      match initAdapter m st net with
      | Except.error msg =>
          (st, { uiErrors := ["Sync error: " ++ msg],
                 initialDownloadTriggered := false, returned := false })
      | Except.ok st1 =>
          let st2 := { st1 with syncEnabled := true }
          let p := startAutoSync st2
          (p.1, { uiErrors := [],
                  initialDownloadTriggered := p.2.initialDownloadTriggered,
                  returned := true })

/-- Effects of one `downloadReports` call. -/
structure PullEffects where
  loggedErrors : List String
  uiErrors : List String
  persisted : Bool
  notificationsShown : List String
  deriving Repr, DecidableEq

/-- `downloadReports`: no-op when disabled; early return for the firebase
variant (it is fed by the listener instead); otherwise one adapter
`download` (the `net` parameter), merge when non-empty, stamp
`lastSyncTime`.  The `catch` only logs — `showSyncError` is not called
here. -/
def downloadReports (st : SyncState) (net : Except String (List Report)) (now : Nat) :
    SyncState × PullEffects :=
  if st.syncEnabled = false then (st, ⟨[], [], false, []⟩)
  else
    match st.syncMethod with
    | some SyncMethod.firebase => (st, ⟨[], [], false, []⟩)
    | some SyncMethod.githubGist | some SyncMethod.simple | some SyncMethod.custom =>
        match net with
        | Except.error msg => (st, ⟨["Download failed: " ++ msg], [], false, []⟩)
        | Except.ok remote =>
            if 0 < remote.length then
              let m := mergeReports st.reports remote
              ({ st with reports := m.reports, lastSyncTime := now },
               ⟨[], [], m.persisted, m.notificationsShown⟩)
            else ({ st with lastSyncTime := now }, ⟨[], [], false, []⟩)
    | none =>
        -- the switch matches no case, the result stays undefined, and the
        -- success log line throws; that TypeError lands in the same catch
        ({ st with lastSyncTime := now }, ⟨["Download failed: TypeError"], [], false, []⟩)

/-- Effects of one `uploadReports` call; `payload` is the record set
handed to the adapter's upload (`none` when no upload was attempted). -/
structure PushEffects where
  payload : Option (List Report)
  loggedErrors : List String
  uiErrors : List String
  deriving Repr, DecidableEq

/-- `uploadReports`: no-op when disabled; otherwise the full current local
array is handed to the adapter.  A failure is caught and logged only. -/
def uploadReports (st : SyncState) (net : Except String Unit) (now : Nat) :
    SyncState × PushEffects :=
  if st.syncEnabled = false then (st, ⟨none, [], []⟩)
  else
    match st.syncMethod with
    | none => ({ st with lastSyncTime := now }, ⟨none, [], []⟩)
    | some _ =>
        match net with
        | Except.error msg => (st, ⟨some st.reports, ["Upload failed: " ++ msg], []⟩)
        | Except.ok _ => ({ st with lastSyncTime := now }, ⟨some st.reports, [], []⟩)

/-- `syncNewReport(report)`: immediately delegates to `uploadReports`;
the report argument itself is only logged, never sent alone. -/
def syncNewReport (_report : Report) (st : SyncState) (net : Except String Unit) (now : Nat) :
    SyncState × PushEffects :=
  if st.syncEnabled = false then (st, ⟨none, [], []⟩)
  else uploadReports st net now

/-- `this.poopReports.push(report)` in `app.js` `submitReport`: the new
record is appended to the local array before any sync push runs. -/
def appendLocalReport (st : SyncState) (n : Report) : SyncState :=
  { st with reports := st.reports ++ [n] }

/- Concrete sample records for witnesses and counterexamples. -/

def sampleReport (i : String) (ts : Nat) : Report :=
  { id := i, lat := 40, lng := 29, severity := "high", locationType := "sidewalk",
    notes := "", notifyMunicipality := false, timestamp := ts, reportedBy := "device-1",
    status := "active", confirmations := 1, cleanupRequested := false }

def rA : Report := sampleReport "a" 100

def rA2 : Report := sampleReport "a" 200

def rB : Report := sampleReport "b" 150

/-- A concrete enabled engine state used by witnesses. -/
def stGist : SyncState :=
  { syncEnabled := true
    syncMethod := some SyncMethod.githubGist
    syncConfig := { method := some SyncMethod.githubGist, gistId := some "g1",
                    githubToken := some "tok" }
    syncInterval := some 0
    timers := { live := [0], nextHandle := 1 }
    subscriptionActive := false
    reports := [rA]
    lastSyncTime := 0 }

/-- A concrete enabled firebase-variant state with a live listener. -/
def stFire : SyncState :=
  { syncEnabled := true
    syncMethod := some SyncMethod.firebase
    syncConfig := { method := some SyncMethod.firebase, firebase := some "fbcfg" }
    syncInterval := some 0
    timers := { live := [0], nextHandle := 1 }
    subscriptionActive := true
    reports := [rA]
    lastSyncTime := 0 }

/-- A configuration selecting the realtime-push (firebase) variant. -/
def cfgFire : SyncConfig :=
  { method := some SyncMethod.firebase, firebase := some "fb" }

/-- A gist configuration with no gist id and no token: the required
credential is absent. -/
def cfgNoTok : SyncConfig :=
  { method := some SyncMethod.githubGist }

/- ---------------------------------------------------------------- -/
/- Helper lemmas on findById / updateFirst                           -/
/- ---------------------------------------------------------------- -/

theorem foldl_fixed_of_mem {α β : Type _} (f : β → α → β) (b : β) :
    ∀ (R : List α), (∀ a ∈ R, f b a = b) → R.foldl f b = b := by
  intro R
  induction R with
  | nil => intro _; rfl
  | cons a R' ih =>
      intro h
      rw [List.foldl_cons, h a (List.mem_cons_self a R')]
      exact ih (fun x hx => h x (List.mem_cons_of_mem a hx))

theorem findById_id {a : String} : ∀ {xs : List Report} {x : Report},
    findById a xs = some x → x.id = a := by
  intro xs
  induction xs with
  | nil => intro x h; simp [findById] at h
  | cons y ys ih =>
      intro x h
      by_cases hy : y.id = a
      · simp [findById, hy] at h; subst h; exact hy
      · simp [findById, hy] at h; exact ih h

theorem findById_append_left {a : String} {x : Report} :
    ∀ {xs : List Report} (ys : List Report),
    findById a xs = some x → findById a (xs ++ ys) = some x := by
  intro xs
  induction xs with
  | nil => intro ys h; simp [findById] at h
  | cons y ys' ih =>
      intro ys h
      by_cases hy : y.id = a
      · simp [findById, hy] at h ⊢; exact h
      · simp [findById, hy] at h ⊢; exact ih ys h

theorem findById_append_right {a : String} :
    ∀ {xs : List Report} (ys : List Report),
    findById a xs = none → findById a (xs ++ ys) = findById a ys := by
  intro xs
  induction xs with
  | nil => intro ys _; simp
  | cons y ys' ih =>
      intro ys h
      by_cases hy : y.id = a
      · simp [findById, hy] at h
      · simp [findById, hy] at h ⊢; exact ih ys h

theorem findById_eq_none {a : String} :
    ∀ {xs : List Report}, a ∉ xs.map Report.id → findById a xs = none := by
  intro xs
  induction xs with
  | nil => intro _; rfl
  | cons y ys ih =>
      intro h
      by_cases hy : y.id = a
      · exact absurd (by simp [hy]) h
      · have h2 : a ∉ ys.map Report.id := fun hm => h (by simp [hm])
        simp [findById, hy, ih h2]

theorem findById_of_mem {a : String} :
    ∀ {xs : List Report}, a ∈ xs.map Report.id →
      ∃ x, findById a xs = some x ∧ x.id = a := by
  intro xs
  induction xs with
  | nil => intro h; simp at h
  | cons y ys ih =>
      intro h
      by_cases hy : y.id = a
      · exact ⟨y, by simp [findById, hy], hy⟩
      · have : a ∈ ys.map Report.id := by
          simp at h
          rcases h with h | h
          · exact absurd h.symm hy
          · simpa using h
        rcases ih this with ⟨x, hx, hxa⟩
        exact ⟨x, by simp [findById, hy, hx], hxa⟩

theorem findById_nodup_mem :
    ∀ {xs : List Report} {l : Report},
      (xs.map Report.id).Nodup → l ∈ xs → findById l.id xs = some l := by
  intro xs
  induction xs with
  | nil => intro l _ h; simp at h
  | cons y ys ih =>
      intro l hnd hl
      rw [List.map_cons] at hnd
      have h1 : y.id ∉ ys.map Report.id := (List.nodup_cons.mp hnd).1
      have h2 : (ys.map Report.id).Nodup := (List.nodup_cons.mp hnd).2
      rcases List.mem_cons.mp hl with h | h
      · subst h; simp [findById]
      · have hy : y.id ≠ l.id := by
          intro he
          exact h1 (by rw [he]; exact List.mem_map_of_mem Report.id h)
        simp [findById, hy, ih h2 h]

theorem updateFirst_append_left {a : String} {r x : Report} :
    ∀ {xs : List Report} (ys : List Report),
    findById a xs = some x →
    updateFirst a r (xs ++ ys) = updateFirst a r xs ++ ys := by
  intro xs
  induction xs with
  | nil => intro ys h; simp [findById] at h
  | cons y ys' ih =>
      intro ys h
      by_cases hy : y.id = a
      · simp [updateFirst, hy]
      · simp [findById, hy] at h
        simp [updateFirst, hy, ih ys h]

theorem updateFirst_map_id {a : String} {r : Report} (hr : r.id = a) :
    ∀ (xs : List Report), (updateFirst a r xs).map Report.id = xs.map Report.id := by
  intro xs
  induction xs with
  | nil => rfl
  | cons y ys ih =>
      by_cases hy : y.id = a
      · simp [updateFirst, hy, hr]
      · simp [updateFirst, hy, ih]

theorem findById_updateFirst_self {a : String} {r x : Report} (hr : r.id = a) :
    ∀ {xs : List Report}, findById a xs = some x →
      findById a (updateFirst a r xs) = some r := by
  intro xs
  induction xs with
  | nil => intro h; simp [findById] at h
  | cons y ys ih =>
      intro h
      by_cases hy : y.id = a
      · simp [updateFirst, hy, findById, hr]
      · simp [findById, hy] at h
        simp [updateFirst, hy, findById, ih h]

theorem findById_updateFirst_ne {a b : String} {r : Report}
    (hba : b ≠ a) (hra : r.id ≠ a) :
    ∀ (xs : List Report), findById a (updateFirst b r xs) = findById a xs := by
  have hab : a ≠ b := fun h => hba h.symm
  intro xs
  induction xs with
  | nil => rfl
  | cons y ys ih =>
      by_cases hy : y.id = b
      · have hya : y.id ≠ a := fun h => hba (hy ▸ h)
        simp [updateFirst, hy, findById, hra, hya, hba, hab]
      · by_cases hya : y.id = a
        · simp [updateFirst, hy, findById, hya, hba, hab]
        · simp [updateFirst, hy, findById, hya, ih, hba, hab]

theorem updateFirst_get?_ne {a : String} {r x : Report} :
    ∀ {xs : List Report} {i : Nat},
      xs[i]? = some x → x.id ≠ a → (updateFirst a r xs)[i]? = some x := by
  intro xs
  induction xs with
  | nil => intro i h _; simp at h
  | cons y ys ih =>
      intro i h hxa
      cases i with
      | zero =>
          simp at h
          subst h
          simp [updateFirst, hxa]
      | succ j =>
          simp at h
          by_cases hy : y.id = a
          · simp [updateFirst, hy, h]
          · simp [updateFirst, hy]
            exact ih h hxa

/- ---------------------------------------------------------------- -/
/- Structure of the merge loop                                       -/
/- ---------------------------------------------------------------- -/

theorem updateLocal_fst_map_id (S : List String) (bp : List Report × List String) (r : Report) :
    ((updateLocal S bp r).1).map Report.id = bp.1.map Report.id := by
  unfold updateLocal
  by_cases hr : r.id ∈ S
  · simp only [hr, if_true]
    cases hfind : findById r.id bp.1 with
    | none => simp
    | some l =>
        by_cases hts : l.timestamp < r.timestamp
        · simp [hts, updateFirst_map_id rfl]
        · simp [hts]
  · simp [hr]

/-- The merge loop splits: updates land in the pre-existing segment of the
array (whose ids cover the snapshot), new records are appended behind
everything, in remote order. -/
theorem mergeLoop_decomp (S : List String) :
    ∀ (R : List Report) (base extra : List Report) (n : Nat) (m : List Report) (p : List String),
    (∀ a, a ∈ S → a ∈ base.map Report.id) →
    (∀ x, x ∈ extra → x.id ∉ S) →
    R.foldl (mergeOne S) ⟨base ++ extra, n, m, p⟩
      = ⟨(R.foldl (updateLocal S) (base, p)).1 ++ extra ++ newRemote S R,
         n + (newRemote S R).length,
         m ++ (newRemote S R).filter (fun r => decide (r.status = "active")),
         (R.foldl (updateLocal S) (base, p)).2⟩ := by
  intro R
  induction R with
  | nil =>
      intro base extra n m p h1 h2
      simp [newRemote]
  | cons r R' ih =>
      intro base extra n m p h1 h2
      by_cases hr : r.id ∈ S
      · rcases findById_of_mem (h1 _ hr) with ⟨l, hfl, hla⟩
        have hfl' : findById r.id (base ++ extra) = some l := findById_append_left extra hfl
        by_cases hts : l.timestamp < r.timestamp
        · have hstep : mergeOne S ⟨base ++ extra, n, m, p⟩ r
              = ⟨updateFirst r.id r base ++ extra, n, m, p ++ [r.id]⟩ := by
            simp [mergeOne, hr, hfl', hts, updateFirst_append_left extra hfl]
          have hstep2 : updateLocal S (base, p) r = (updateFirst r.id r base, p ++ [r.id]) := by
            simp [updateLocal, hr, hfl, hts]
          have h1' : ∀ a, a ∈ S → a ∈ (updateFirst r.id r base).map Report.id := by
            intro a ha; rw [updateFirst_map_id rfl]; exact h1 a ha
          rw [List.foldl_cons, hstep, ih _ _ _ _ _ h1' h2, List.foldl_cons, hstep2]
          simp [newRemote, hr]
        · have hstep : mergeOne S ⟨base ++ extra, n, m, p⟩ r = ⟨base ++ extra, n, m, p⟩ := by
            simp [mergeOne, hr, hfl', hts]
          have hstep2 : updateLocal S (base, p) r = (base, p) := by
            simp [updateLocal, hr, hfl, hts]
          rw [List.foldl_cons, hstep, ih _ _ _ _ _ h1 h2, List.foldl_cons, hstep2]
          simp [newRemote, hr]
      · have hstep : mergeOne S ⟨base ++ extra, n, m, p⟩ r
            = ⟨base ++ (extra ++ [r]), n + 1,
               if r.status = "active" then m ++ [r] else m, p⟩ := by
          simp [mergeOne, hr, List.append_assoc]
        have h2' : ∀ x, x ∈ extra ++ [r] → x.id ∉ S := by
          intro x hx
          rcases List.mem_append.mp hx with hx | hx
          · exact h2 x hx
          · simp at hx; subst hx; exact hr
        have hstep2 : updateLocal S (base, p) r = (base, p) := by
          simp [updateLocal, hr]
        rw [List.foldl_cons, hstep, ih _ (extra ++ [r]) _ _ _ h1 h2', List.foldl_cons, hstep2]
        have hnr : newRemote S (r :: R') = r :: newRemote S R' := by
          simp [newRemote, hr]
        rw [hnr]
        simp only [MergeLoopState.mk.injEq]
        refine ⟨?_, ?_, ?_, trivial⟩
        · simp [List.append_assoc]
        · simp only [List.length_cons]; omega
        · rw [List.filter_cons]
          by_cases hst : r.status = "active"
          · simp [hst, List.append_assoc]
          · simp [hst]

theorem mergeReports_reports_eq (L R : List Report) :
    (mergeReports L R).reports
      = (R.foldl (updateLocal (L.map Report.id)) (L, [])).1
          ++ newRemote (L.map Report.id) R := by
  have h := mergeLoop_decomp (L.map Report.id) R L [] 0 [] []
      (fun a ha => ha) (fun x hx => absurd hx (List.not_mem_nil x))
  simp at h
  simp [mergeReports, h]

theorem mergeReports_newCount_eq (L R : List Report) :
    (mergeReports L R).newReports = (newRemote (L.map Report.id) R).length := by
  have h := mergeLoop_decomp (L.map Report.id) R L [] 0 [] []
      (fun a ha => ha) (fun x hx => absurd hx (List.not_mem_nil x))
  simp at h
  simp [mergeReports, h]

theorem updateLocal_fst_getElem_ne (S : List String) (bp : List Report × List String)
    (r x : Report) (i : Nat) (h : bp.1[i]? = some x) (hne : x.id ≠ r.id) :
    ((updateLocal S bp r).1)[i]? = some x := by
  unfold updateLocal
  by_cases hr : r.id ∈ S
  · simp only [hr, if_true]
    cases hfind : findById r.id bp.1 with
    | none => simpa using h
    | some l =>
        by_cases hts : l.timestamp < r.timestamp
        · simp only [hts, if_true]
          exact updateFirst_get?_ne h hne
        · simpa [hts] using h
  · simpa [hr] using h

theorem foldl_updateLocal_map_id (S : List String) :
    ∀ (R : List Report) (bp : List Report × List String),
      ((R.foldl (updateLocal S) bp).1).map Report.id = bp.1.map Report.id := by
  intro R
  induction R with
  | nil => intro bp; rfl
  | cons r R' ih =>
      intro bp
      rw [List.foldl_cons, ih, updateLocal_fst_map_id]

theorem foldl_updateLocal_getElem_ne (S : List String) :
    ∀ (R : List Report) (bp : List Report × List String) (x : Report) (i : Nat),
      bp.1[i]? = some x → (∀ r' ∈ R, r'.id ≠ x.id) →
      ((R.foldl (updateLocal S) bp).1)[i]? = some x := by
  intro R
  induction R with
  | nil => intro bp x i h _; exact h
  | cons r R' ih =>
      intro bp x i h hs
      rw [List.foldl_cons]
      refine ih _ x i ?_ (fun r' hr' => hs r' (List.mem_cons_of_mem r hr'))
      exact updateLocal_fst_getElem_ne S bp r x i h
        (fun he => hs r (List.mem_cons_self r R') he.symm)

theorem updateLocal_findById_ne (S : List String) (bp : List Report × List String)
    (r : Report) (a : String) (hra : r.id ≠ a) :
    findById a ((updateLocal S bp r).1) = findById a bp.1 := by
  unfold updateLocal
  by_cases hr : r.id ∈ S
  · simp only [hr, if_true]
    cases hfind : findById r.id bp.1 with
    | none => rfl
    | some l =>
        by_cases hts : l.timestamp < r.timestamp
        · simp only [hts, if_true]
          exact findById_updateFirst_ne hra hra bp.1
        · simp [hts]
  · simp [hr]

theorem foldl_updateLocal_findById_ne (S : List String) (a : String) :
    ∀ (R : List Report) (bp : List Report × List String),
      (∀ r' ∈ R, r'.id ≠ a) →
      findById a ((R.foldl (updateLocal S) bp).1) = findById a bp.1 := by
  intro R
  induction R with
  | nil => intro bp _; rfl
  | cons r R' ih =>
      intro bp hs
      rw [List.foldl_cons, ih _ (fun r' hr' => hs r' (List.mem_cons_of_mem r hr'))]
      exact updateLocal_findById_ne S bp r a (hs r (List.mem_cons_self r R'))

theorem updateLocal_findById_hit (S : List String) (bp : List Report × List String)
    (r l : Report) (hrS : r.id ∈ S) (hfind : findById r.id bp.1 = some l) :
    findById r.id ((updateLocal S bp r).1)
      = some (if l.timestamp < r.timestamp then r else l) := by
  unfold updateLocal
  simp only [hrS, if_true, hfind]
  by_cases hts : l.timestamp < r.timestamp
  · simp only [hts, if_true]
    exact findById_updateFirst_self rfl hfind
  · simp [hts, hfind]

/-- Processing `R₁ ++ r :: R₂`, where no record of `R₁`/`R₂` shares `r`'s
id: the first record with that id ends up being `r` when `r` is strictly
newer than the record found before it, and that record otherwise. -/
theorem foldl_updateLocal_findById (S : List String) (a : String)
    (R₁ R₂ : List Report) (r : Report) (bp : List Report × List String) (l : Report)
    (h1 : ∀ r' ∈ R₁, r'.id ≠ a) (h2 : ∀ r' ∈ R₂, r'.id ≠ a)
    (hra : r.id = a) (haS : a ∈ S) (hfind : findById a bp.1 = some l) :
    findById a (((R₁ ++ r :: R₂).foldl (updateLocal S) bp).1)
      = some (if l.timestamp < r.timestamp then r else l) := by
  rw [List.foldl_append, List.foldl_cons]
  have e1 : findById a ((R₁.foldl (updateLocal S) bp).1) = some l :=
    (foldl_updateLocal_findById_ne S a R₁ bp h1).trans hfind
  have e2 := updateLocal_findById_hit S (R₁.foldl (updateLocal S) bp) r l
      (by rw [hra]; exact haS) (by rw [hra]; exact e1)
  rw [foldl_updateLocal_findById_ne S a R₂ _ h2, ← hra]
  exact e2

theorem nodup_split_ids (R : List Report) (r : Report)
    (hR : (R.map Report.id).Nodup) (hr : r ∈ R) :
    ∃ R₁ R₂, R = R₁ ++ r :: R₂
      ∧ (∀ r' ∈ R₁, r'.id ≠ r.id) ∧ (∀ r' ∈ R₂, r'.id ≠ r.id) := by
  rcases List.append_of_mem hr with ⟨R₁, R₂, rfl⟩
  rw [List.map_append, List.map_cons] at hR
  have hd := List.nodup_append.mp hR
  refine ⟨R₁, R₂, rfl, ?_, ?_⟩
  · intro r' h' he
    exact hd.2.2 (by rw [← he]; exact List.mem_map_of_mem _ h') (List.mem_cons_self _ _)
  · intro r' h' he
    exact (List.nodup_cons.mp hd.2.1).1 (by rw [← he]; exact List.mem_map_of_mem _ h')

theorem mem_newRemote {S : List String} {R : List Report} {r : Report} :
    r ∈ newRemote S R ↔ r ∈ R ∧ r.id ∉ S := by
  simp [newRemote]

theorem newRemote_map_id_nodup {S : List String} {R : List Report}
    (hR : (R.map Report.id).Nodup) : ((newRemote S R).map Report.id).Nodup :=
  hR.sublist (List.Sublist.map _ (List.filter_sublist R))

/-- After a merge, the first record carrying the id of any remote record
`r` (from a duplicate-free remote set) is at least as new as `r`. -/
theorem merge_findById_stale (L R : List Report) (r : Report)
    (hR : (R.map Report.id).Nodup) (hr : r ∈ R) :
    ∃ x, findById r.id (mergeReports L R).reports = some x
      ∧ ¬ x.timestamp < r.timestamp := by
  rw [mergeReports_reports_eq]
  by_cases hin : r.id ∈ L.map Report.id
  · rcases findById_of_mem hin with ⟨l₀, hf, hl₀⟩
    rcases nodup_split_ids R r hR hr with ⟨R₁, R₂, hsplit, h1, h2⟩
    rw [hsplit]
    have hB := foldl_updateLocal_findById (L.map Report.id) r.id R₁ R₂ r (L, []) l₀
        h1 h2 rfl hin hf
    rw [findById_append_left _ hB]
    by_cases hts : l₀.timestamp < r.timestamp
    · exact ⟨r, by simp [hts], lt_irrefl _⟩
    · exact ⟨l₀, by simp [hts], hts⟩
  · have hBnone :
        findById r.id ((R.foldl (updateLocal (L.map Report.id)) (L, [])).1) = none := by
      apply findById_eq_none
      rw [foldl_updateLocal_map_id]
      exact hin
    rw [findById_append_right _ hBnone]
    have hmem : r ∈ newRemote (L.map Report.id) R := mem_newRemote.mpr ⟨hr, hin⟩
    rw [findById_nodup_mem (newRemote_map_id_nodup hR) hmem]
    exact ⟨r, rfl, lt_irrefl _⟩

/-- Every remote record's id occurs in the merged set. -/
theorem merge_id_mem (L R : List Report) (r : Report) (hr : r ∈ R) :
    r.id ∈ (mergeReports L R).reports.map Report.id := by
  rw [mergeReports_reports_eq, List.map_append, foldl_updateLocal_map_id]
  by_cases hin : r.id ∈ L.map Report.id
  · exact List.mem_append_left _ hin
  · exact List.mem_append_right _
      (List.mem_map_of_mem _ (mem_newRemote.mpr ⟨hr, hin⟩))

/- ---------------------------------------------------------------- -/
/- Claim theorems                                                    -/
/- ---------------------------------------------------------------- -/

/-- C1: last-write-wins by timestamp.  For duplicate-free local and
remote sets sharing an id, the merged record with that id is the remote
record when its timestamp is strictly later (whole-record replacement),
and the untouched local record otherwise (ties favor the local copy). -/
theorem mergeReports_last_write_wins (L R : List Report) (l r : Report)
    (hL : (L.map Report.id).Nodup) (hR : (R.map Report.id).Nodup)
    (hl : l ∈ L) (hr : r ∈ R) (hid : r.id = l.id) :
    (l.timestamp < r.timestamp →
        findById r.id (mergeReports L R).reports = some r)
    ∧ (¬ l.timestamp < r.timestamp →
        findById r.id (mergeReports L R).reports = some l) := by
  have hf : findById r.id L = some l := by rw [hid]; exact findById_nodup_mem hL hl
  have hin : r.id ∈ L.map Report.id := by rw [hid]; exact List.mem_map_of_mem _ hl
  rcases nodup_split_ids R r hR hr with ⟨R₁, R₂, hsplit, h1, h2⟩
  have hB := foldl_updateLocal_findById (L.map Report.id) r.id R₁ R₂ r (L, []) l
      h1 h2 rfl hin hf
  have key : findById r.id (mergeReports L R).reports
      = some (if l.timestamp < r.timestamp then r else l) := by
    rw [hsplit, mergeReports_reports_eq]
    exact findById_append_left _ hB
  constructor
  · intro hts; rw [key]; simp [hts]
  · intro hts; rw [key]; simp [hts]

/-- C1 witness: a newer remote record with the same id replaces the local
one in a concrete merge. -/
theorem mergeReports_last_write_wins_witness :
    findById rA2.id (mergeReports [rA] [rA2]).reports = some rA2 :=
  (mergeReports_last_write_wins [rA] [rA2] rA rA2 (by decide) (by decide)
    (by decide) (by decide) (by decide)).1 (by decide)

/-- C2 counterexample: the id snapshot is taken once before the loop, so a
remote set containing the same fresh id twice is appended twice — the
merged set holds two records with equal id. -/
theorem mergeReports_duplicate_counterexample :
    (mergeReports [] [rA, rA]).reports = [rA, rA]
    ∧ ¬ ((mergeReports [] [rA, rA]).reports.map Report.id).Nodup := by
  constructor
  · decide
  · decide

/-- C2 (amended): when the remote set itself carries pairwise-distinct ids
(and so does the local set), the merged set has pairwise-distinct ids. -/
theorem mergeReports_no_duplicates (L R : List Report)
    (hL : (L.map Report.id).Nodup) (hR : (R.map Report.id).Nodup) :
    ((mergeReports L R).reports.map Report.id).Nodup := by
  rw [mergeReports_reports_eq, List.map_append, foldl_updateLocal_map_id,
    List.nodup_append]
  refine ⟨hL, newRemote_map_id_nodup hR, ?_⟩
  intro a ha hb
  rcases List.mem_map.mp hb with ⟨x, hx, rfl⟩
  exact (mem_newRemote.mp hx).2 ha

/-- C2 witness: a concrete duplicate-free merge stays duplicate-free. -/
theorem mergeReports_no_duplicates_witness :
    ((mergeReports [rA] [rB]).reports.map Report.id).Nodup :=
  mergeReports_no_duplicates [rA] [rB] (by decide) (by decide)

/-- C3 counterexample: with a remote set that repeats one fresh id with
increasing timestamps, the second merge of the very same remote set still
changes the local state (the first duplicate gets overwritten). -/
theorem mergeReports_idempotent_counterexample :
    ¬ ((mergeReports (mergeReports [] [rA, rA2]).reports [rA, rA2]).reports
        = (mergeReports [] [rA, rA2]).reports) := by
  decide

/-- C3 (amended): for a remote set with pairwise-distinct ids, re-merging
the same remote set leaves the local state unchanged with a zero
new-record count, hence no persistence call and no notification. -/
theorem mergeReports_idempotent (L R : List Report)
    (hR : (R.map Report.id).Nodup) :
    (mergeReports (mergeReports L R).reports R).reports = (mergeReports L R).reports
    ∧ (mergeReports (mergeReports L R).reports R).newReports = 0
    ∧ (mergeReports (mergeReports L R).reports R).persisted = false
    ∧ (mergeReports (mergeReports L R).reports R).notificationsShown = [] := by
  set M := (mergeReports L R).reports with hM
  have hfix : ∀ r ∈ R, mergeOne (M.map Report.id) ⟨M, 0, [], []⟩ r = ⟨M, 0, [], []⟩ := by
    intro r hrR
    rcases merge_findById_stale L R r hR hrR with ⟨x, hx, hts⟩
    have hmem : r.id ∈ M.map Report.id := merge_id_mem L R r hrR
    simp [mergeOne, hmem, hM ▸ hx, hts]
  have hfold : R.foldl (mergeOne (M.map Report.id)) ⟨M, 0, [], []⟩ = ⟨M, 0, [], []⟩ :=
    foldl_fixed_of_mem _ _ R hfix
  refine ⟨?_, ?_, ?_, ?_⟩ <;> simp [mergeReports, hfold]

/-- C3 witness: a concrete duplicate-free re-merge is a no-op. -/
theorem mergeReports_idempotent_witness :
    (mergeReports (mergeReports [rA] [rA2, rB]).reports [rA2, rB]).reports
      = (mergeReports [rA] [rA2, rB]).reports :=
  (mergeReports_idempotent [rA] [rA2, rB] (by decide)).1

/-- C4: merging an empty remote set is a no-op (no new records, local set
unchanged, no persistence, no notification); in every merge the local set
is persisted and exactly one aggregate notification is shown iff the
new-record count — the number of remote records with fresh ids — is
positive; and an empty adapter download performs no merge at all. -/
theorem mergeReports_empty_and_gating :
    (∀ L : List Report,
        (mergeReports L []).reports = L
        ∧ (mergeReports L []).newReports = 0
        ∧ (mergeReports L []).persisted = false
        ∧ (mergeReports L []).notificationsShown = [])
    ∧ (∀ L R : List Report,
        (mergeReports L R).newReports
            = (R.filter (fun r => decide (r.id ∉ L.map Report.id))).length
        ∧ ((mergeReports L R).persisted = true ↔ 0 < (mergeReports L R).newReports)
        ∧ (mergeReports L R).notificationsShown
            = (if 0 < (mergeReports L R).newReports
               then [notifMessage (mergeReports L R).newReports] else []))
    ∧ (∀ (st : SyncState) (now : Nat) (m : SyncMethod),
        st.syncEnabled = true → st.syncMethod = some m → m ≠ SyncMethod.firebase →
        downloadReports st (Except.ok []) now
          = ({ st with lastSyncTime := now }, ⟨[], [], false, []⟩)) := by
  refine ⟨?_, ?_, ?_⟩
  · intro L
    refine ⟨rfl, rfl, rfl, rfl⟩
  · intro L R
    refine ⟨?_, ?_, ?_⟩
    · rw [mergeReports_newCount_eq]; rfl
    · simp [mergeReports]
    · simp [mergeReports]
  · intro st now m h1 h2 h3
    cases m with
    | firebase => exact absurd rfl h3
    | githubGist => simp [downloadReports, h1, h2]
    | custom => simp [downloadReports, h1, h2]
    | simple => simp [downloadReports, h1, h2]

/-- C4 witness: an empty download against a concrete enabled gist engine
only stamps the sync time. -/
theorem mergeReports_empty_and_gating_witness :
    downloadReports stGist (Except.ok []) 7
      = ({ stGist with lastSyncTime := 7 }, ⟨[], [], false, []⟩) :=
  mergeReports_empty_and_gating.2.2 stGist 7 SyncMethod.githubGist rfl rfl (by decide)

/-- C10: the merge never loses local records: the first `|L|` positions of
the merged set carry exactly the local ids in order, a local record whose
id does not occur remotely is left untouched at its position, the genuinely
new remote records are appended behind the locals in remote order, and
every local id survives. -/
theorem mergeReports_preserves_locals (L R : List Report) :
    (((mergeReports L R).reports.take L.length).map Report.id = L.map Report.id)
    ∧ (∀ (i : Nat) (x : Report), L[i]? = some x → x.id ∉ R.map Report.id →
        (mergeReports L R).reports[i]? = some x)
    ∧ ((mergeReports L R).reports.drop L.length
        = R.filter (fun r => decide (r.id ∉ L.map Report.id)))
    ∧ (∀ l ∈ L, l.id ∈ (mergeReports L R).reports.map Report.id) := by
  have hrep := mergeReports_reports_eq L R
  have hBid : ((R.foldl (updateLocal (L.map Report.id)) (L, [])).1).map Report.id
      = L.map Report.id := foldl_updateLocal_map_id _ R (L, [])
  have hBlen : (R.foldl (updateLocal (L.map Report.id)) (L, [])).1.length = L.length := by
    have := congrArg List.length hBid
    simpa using this
  refine ⟨?_, ?_, ?_, ?_⟩
  · rw [hrep, ← hBlen, List.take_left]
    exact hBid
  · intro i x hLi hnot
    have hi : i < L.length := by
      rcases List.getElem?_eq_some.mp hLi with ⟨h, _⟩
      exact h
    have hB : ((R.foldl (updateLocal (L.map Report.id)) (L, [])).1)[i]? = some x := by
      refine foldl_updateLocal_getElem_ne _ R (L, []) x i hLi ?_
      intro r' hr' he
      exact hnot (by rw [← he]; exact List.mem_map_of_mem _ hr')
    rw [hrep, List.getElem?_append_left (by rw [hBlen]; exact hi)]
    exact hB
  · rw [hrep, ← hBlen, List.drop_left]
    rfl
  · intro l hl
    rw [hrep, List.map_append, hBid]
    exact List.mem_append_left _ (List.mem_map_of_mem _ hl)

/-- C10 witness: a concrete local record whose id is absent remotely stays
at position 0. -/
theorem mergeReports_preserves_locals_witness :
    (mergeReports [rA] [rB]).reports[0]? = some rA :=
  (mergeReports_preserves_locals [rA] [rB]).2.1 0 rA (by decide) (by decide)

/-- C5 counterexample: a failing download (and upload) on a concrete
enabled engine produces no UI error notification — the claim that
failures are "reported to the UI notifier" is false; they are only
logged. -/
theorem transferFailure_not_surfaced_counterexample :
    (downloadReports stGist (Except.error "network down") 5).2.uiErrors = []
    ∧ (uploadReports stGist (Except.error "network down") 5).2.uiErrors = []
    ∧ (downloadReports stGist (Except.error "network down") 5).2.loggedErrors
        = ["Download failed: network down"] := by
  refine ⟨rfl, rfl, rfl⟩

/-- C5 (amended): an adapter failure while sync is enabled is caught at
the engine boundary, leaves the whole engine state (enabled flag, local
records, timers) unchanged — so the next tick retries — and is not
surfaced to the UI notifier.  Upload failures are logged for every
variant, firebase included (its catch block is the same one); download
failures are logged for every pull-based variant, while the firebase
poll-path download performs no network call at all, so its ticks leave
state unchanged whatever the adapter outcome. -/
theorem transferFailure_caught_state_unchanged
    (st : SyncState) (e e' : String) (now : Nat) (m : SyncMethod)
    (h1 : st.syncEnabled = true) (h2 : st.syncMethod = some m) :
    uploadReports st (Except.error e') now
      = (st, ⟨some st.reports, ["Upload failed: " ++ e'], []⟩)
    ∧ (m ≠ SyncMethod.firebase →
        downloadReports st (Except.error e) now
          = (st, ⟨["Download failed: " ++ e], [], false, []⟩))
    ∧ (m = SyncMethod.firebase →
        ∀ (net2 : Except String (List Report)),
          downloadReports st net2 now = (st, ⟨[], [], false, []⟩)) := by
  refine ⟨?_, ?_, ?_⟩
  · simp [uploadReports, h1, h2]
  · intro h3
    cases m with
    | firebase => exact absurd rfl h3
    | githubGist => simp [downloadReports, h1, h2]
    | custom => simp [downloadReports, h1, h2]
    | simple => simp [downloadReports, h1, h2]
  · intro h3 net2
    subst h3
    simp [downloadReports, h1, h2]

/-- C5 witness: a failing upload on the concrete enabled firebase engine
is caught, logged, not surfaced to the UI, and changes nothing. -/
theorem transferFailure_caught_state_unchanged_witness :
    uploadReports stFire (Except.error "offline") 9
      = (stFire, ⟨some [rA], ["Upload failed: offline"], []⟩) :=
  (transferFailure_caught_state_unchanged stFire "x" "offline" 9
    SyncMethod.firebase rfl rfl).1

/-- C6: push is a full snapshot — every upload hands the adapter the
complete current local array, and the push after creating record `n`
sends all previous records together with `n`, never `n` alone. -/
theorem uploadReports_full_snapshot
    (st : SyncState) (n : Report) (net : Except String Unit) (now : Nat) (m : SyncMethod)
    (h1 : st.syncEnabled = true) (h2 : st.syncMethod = some m) :
    (uploadReports st net now).2.payload = some st.reports
    ∧ (syncNewReport n (appendLocalReport st n) net now).2.payload
        = some (st.reports ++ [n])
    ∧ n ∈ st.reports ++ [n]
    ∧ (∀ x ∈ st.reports, x ∈ st.reports ++ [n]) := by
  refine ⟨?_, ?_, by simp, fun x hx => List.mem_append_left _ hx⟩
  · cases net with
    | error msg => simp [uploadReports, h1, h2]
    | ok u => simp [uploadReports, h1, h2]
  · cases net with
    | error msg => simp [syncNewReport, uploadReports, appendLocalReport, h1, h2]
    | ok u => simp [syncNewReport, uploadReports, appendLocalReport, h1, h2]

/-- C6 witness: a concrete push after creating a new record carries the
old record too. -/
theorem uploadReports_full_snapshot_witness :
    (syncNewReport rB (appendLocalReport stGist rB) (Except.ok ()) 3).2.payload
      = some ([rA] ++ [rB]) :=
  (uploadReports_full_snapshot stGist rB (Except.ok ()) 3 SyncMethod.githubGist
    rfl rfl).2.1

/-- C7 counterexample: successfully initializing the push-based (firebase)
variant activates the subscription but still starts one poll timer — the
claimed "zero poll timers" is false. -/
theorem pushVariant_poll_counterexample :
    ((initializeSync (mkBackendSync cfgFire []) (Except.ok "sdk")).1).syncEnabled = true
    ∧ ((initializeSync (mkBackendSync cfgFire []) (Except.ok "sdk")).1).subscriptionActive
        = true
    ∧ ((initializeSync (mkBackendSync cfgFire []) (Except.ok "sdk")).1).timers.live.length
        = 1
    ∧ ¬ ((initializeSync (mkBackendSync cfgFire []) (Except.ok "sdk")).1).timers.live.length
        = 0 := by
  refine ⟨rfl, rfl, rfl, by decide⟩

theorem startAutoSync_components (st : SyncState) (hint : st.syncInterval = none) :
    ((startAutoSync st).1).timers.live = st.timers.live ++ [st.timers.nextHandle]
    ∧ ((startAutoSync st).1).syncInterval = some st.timers.nextHandle
    ∧ ((startAutoSync st).1).syncEnabled = st.syncEnabled
    ∧ ((startAutoSync st).1).subscriptionActive = st.subscriptionActive
    ∧ ((startAutoSync st).1).syncMethod = st.syncMethod
    ∧ ((startAutoSync st).1).reports = st.reports := by
  simp [startAutoSync, hint, setIntervalT]

theorem initializeSync_ok_eq (st : SyncState) (net : Except String String)
    (m : SyncMethod) (st1 : SyncState)
    (hm : st.syncMethod = some m) (hok : initAdapter m st net = Except.ok st1) :
    (initializeSync st net).1 = (startAutoSync { st1 with syncEnabled := true }).1 := by
  simp [initializeSync, hm, hok]

/-- Successful adapter construction only touches the configuration and,
for the firebase variant, the subscription flag. -/
theorem initAdapter_ok_frame (m : SyncMethod) (st st1 : SyncState)
    (net : Except String String) (hok : initAdapter m st net = Except.ok st1) :
    st1.syncInterval = st.syncInterval ∧ st1.timers = st.timers
    ∧ st1.syncMethod = st.syncMethod ∧ st1.syncEnabled = st.syncEnabled
    ∧ st1.reports = st.reports
    ∧ (m = SyncMethod.firebase → st1.subscriptionActive = true)
    ∧ (m ≠ SyncMethod.firebase → st1.subscriptionActive = st.subscriptionActive) := by
  cases m with
  | firebase =>
      cases net with
      | error e => simp [initAdapter, initFirebaseSync] at hok
      | ok s =>
          cases hcfg : st.syncConfig.firebase with
          | none => simp [initAdapter, initFirebaseSync, hcfg] at hok
          | some c =>
              simp [initAdapter, initFirebaseSync, hcfg] at hok
              subst hok
              simp
  | githubGist =>
      cases hg : st.syncConfig.gistId with
      | some g =>
          simp [initAdapter, initGitHubGistSync, hg] at hok
          subst hok
          simp
      | none =>
          cases ht : st.syncConfig.githubToken with
          | none => simp [initAdapter, initGitHubGistSync, hg, ht] at hok
          | some tok =>
              cases net with
              | error e =>
                  simp [initAdapter, initGitHubGistSync, createGist, hg, ht] at hok
              | ok nid =>
                  simp [initAdapter, initGitHubGistSync, createGist, hg, ht] at hok
                  subst hok
                  simp
  | custom =>
      cases hc : st.syncConfig.apiEndpoint with
      | none => simp [initAdapter, initCustomSync, hc] at hok
      | some ep =>
          simp [initAdapter, initCustomSync, hc] at hok
          subst hok
          simp
  | simple =>
      cases hk : st.syncConfig.key with
      | none => simp [initAdapter, initSimpleSync, hk] at hok
      | some k =>
          simp [initAdapter, initSimpleSync, hk] at hok
          subst hok
          simp

/-- C7 (amended): entering the enabled state from a fresh engine always
leaves exactly one poll timer live — also for the push-based variant,
whose subscription is active and whose poll ticks are no-ops inside
`downloadReports` (the suppression happens there, not at the timer);
pull-based variants end with one timer and no subscription. -/
theorem initializeSync_enabled_invariants
    (st : SyncState) (net : Except String String) (m : SyncMethod) (st1 : SyncState)
    (hm : st.syncMethod = some m) (hok : initAdapter m st net = Except.ok st1)
    (hint : st.syncInterval = none) (hlive : st.timers.live = [])
    (hsub : st.subscriptionActive = false) :
    ((initializeSync st net).1).syncEnabled = true
    ∧ ((initializeSync st net).1).timers.live.length = 1
    ∧ (m = SyncMethod.firebase →
        ((initializeSync st net).1).subscriptionActive = true
        ∧ ∀ (net2 : Except String (List Report)) (now : Nat),
            downloadReports ((initializeSync st net).1) net2 now
              = ((initializeSync st net).1, ⟨[], [], false, []⟩))
    ∧ (m ≠ SyncMethod.firebase →
        ((initializeSync st net).1).subscriptionActive = false) := by
  obtain ⟨f1, f2, f3, f4, f5, f6, f7⟩ := initAdapter_ok_frame m st st1 net hok
  have heq := initializeSync_ok_eq st net m st1 hm hok
  have h2int : (({ st1 with syncEnabled := true } : SyncState)).syncInterval = none := by
    simp [f1, hint]
  obtain ⟨c1, c2, c3, c4, c5, c6⟩ :=
    startAutoSync_components { st1 with syncEnabled := true } h2int
  have hen : ((initializeSync st net).1).syncEnabled = true := by
    rw [heq, c3]
  refine ⟨hen, ?_, ?_, ?_⟩
  · rw [heq, c1]
    simp [f2, hlive]
  · intro hfb
    have hsub1 : ((initializeSync st net).1).subscriptionActive = true := by
      rw [heq, c4]
      simpa using f6 hfb
    refine ⟨hsub1, ?_⟩
    intro net2 now
    have hm1 : ((initializeSync st net).1).syncMethod = some SyncMethod.firebase := by
      rw [heq, c5]
      simp [f3, hm, hfb]
    simp [downloadReports, hen, hm1]
  · intro hnfb
    rw [heq, c4]
    simpa [hsub] using f7 hnfb

/-- C7 witness: the amended invariants at the concrete firebase engine. -/
theorem initializeSync_enabled_invariants_witness :
    ((initializeSync (mkBackendSync cfgFire []) (Except.ok "sdk")).1).timers.live.length
      = 1 :=
  (initializeSync_enabled_invariants (mkBackendSync cfgFire []) (Except.ok "sdk")
    SyncMethod.firebase
    { mkBackendSync cfgFire [] with subscriptionActive := true }
    rfl rfl rfl rfl rfl).2.1

/-- C8: adapter-construction failure is non-fatal and only disables sync:
whenever the configured adapter fails to construct, `initializeSync`
returns normally with `false`, surfaces the error through the UI error
toast, and leaves the engine exactly as it was — disabled, with no poll
timer started; in particular an absent GitHub token fails construction
with an error naming the missing credential. -/
theorem initializeSync_failure_disables :
    (∀ (st : SyncState) (net : Except String String) (m : SyncMethod) (msg : String),
        st.syncMethod = some m → st.syncEnabled = false → st.syncInterval = none →
        initAdapter m st net = Except.error msg →
        initializeSync st net
          = (st, { uiErrors := ["Sync error: " ++ msg],
                   initialDownloadTriggered := false, returned := false })
        ∧ ((initializeSync st net).1).syncEnabled = false
        ∧ ((initializeSync st net).1).syncInterval = none)
    ∧ (∀ (st : SyncState) (net : Except String String),
        st.syncConfig.gistId = none → st.syncConfig.githubToken = none →
        initAdapter SyncMethod.githubGist st net
          = Except.error "GitHub token required to create sync storage") := by
  constructor
  · intro st net m msg hm hdis hint herr
    have he : initializeSync st net
        = (st, { uiErrors := ["Sync error: " ++ msg],
                 initialDownloadTriggered := false, returned := false }) := by
      simp [initializeSync, hm, herr]
    refine ⟨he, ?_, ?_⟩
    · rw [he]; exact hdis
    · rw [he]; exact hint
  · intro st net hg ht
    simp [initAdapter, initGitHubGistSync, hg, ht]

/-- C8 witness: initializing a gist engine with no gist id and no token
reports the credential error and stays disabled with no timer. -/
theorem initializeSync_failure_disables_witness :
    initializeSync (mkBackendSync cfgNoTok []) (Except.ok "x")
      = (mkBackendSync cfgNoTok [],
         { uiErrors := ["Sync error: GitHub token required to create sync storage"],
           initialDownloadTriggered := false, returned := false }) :=
  (initializeSync_failure_disables.1 (mkBackendSync cfgNoTok []) (Except.ok "x")
    SyncMethod.githubGist "GitHub token required to create sync storage"
    rfl rfl rfl
    (initializeSync_failure_disables.2 (mkBackendSync cfgNoTok []) (Except.ok "x")
      rfl rfl)).1

/-- C9 counterexample: `stopAutoSync` on a concrete engine with a live
firebase listener cancels the poll timer but leaves the subscription
active — the claimed "closes the real-time subscription" is false. -/
theorem stopAutoSync_subscription_counterexample :
    (stopAutoSync stFire).subscriptionActive = true
    ∧ (stopAutoSync stFire).syncInterval = none := by
  refine ⟨rfl, rfl⟩

/-- C9 (amended): suspend cancels the poll timer, is idempotent, is a
no-op (and does not fail) when no timer exists, and never closes the
real-time subscription; restarting while a timer is live replaces it, so
there is never a second live timer. -/
theorem stopAutoSync_idempotent_cancels_timer (st : SyncState) (h : Nat)
    (hint : st.syncInterval = some h) (hlive : st.timers.live = [h]) :
    (stopAutoSync st).syncInterval = none
    ∧ (stopAutoSync st).timers.live = []
    ∧ stopAutoSync (stopAutoSync st) = stopAutoSync st
    ∧ (∀ st' : SyncState, st'.syncInterval = none → stopAutoSync st' = st')
    ∧ (stopAutoSync st).subscriptionActive = st.subscriptionActive
    ∧ ((startAutoSync st).1).timers.live.length = 1 := by
  have hstop : stopAutoSync st
      = { st with timers := clearIntervalT st.timers h, syncInterval := none } := by
    simp [stopAutoSync, hint]
  refine ⟨?_, ?_, ?_, ?_, ?_, ?_⟩
  · rw [hstop]
  · rw [hstop]; simp [clearIntervalT, hlive]
  · rw [hstop]; simp [stopAutoSync]
  · intro st' h'; simp [stopAutoSync, h']
  · rw [hstop]
  · simp [startAutoSync, hint, setIntervalT, clearIntervalT, hlive]

/-- C9 witness: the amended suspend behavior at a concrete engine with a
live timer and subscription. -/
theorem stopAutoSync_idempotent_cancels_timer_witness :
    stopAutoSync (stopAutoSync stFire) = stopAutoSync stFire
    ∧ (stopAutoSync stFire).subscriptionActive = stFire.subscriptionActive :=
  ⟨(stopAutoSync_idempotent_cancels_timer stFire 0 rfl rfl).2.2.1,
   (stopAutoSync_idempotent_cancels_timer stFire 0 rfl rfl).2.2.2.2.1⟩

end Pooler
